import Mathlib

/-!
# Verification of the stitch-compiler core of `src/lambdas/svg_converter.py`

Shallow embedding of the geometry-to-stitch compiler: coordinate
normalization, point-in-polygon testing, fill/satin/running stitch
generation, the pattern-encoder command stream, and the PES
decoder/quality heuristics.  Python floats are idealized as `ℚ` for the
purely arithmetic routines and as `ℝ` for the routines that take square
roots; Python exceptions (`ZeroDivisionError`, `IndexError`, unbound
local reads) are modelled by `Option`, with `none` marking the crash.
-/

/-- Python `int()` applied to a rational: truncation toward zero
(floor for nonnegative values, ceiling for negative ones). -/
def pyInt (q : ℚ) : ℤ :=
  if 0 ≤ q then ⌊q⌋ else ⌈q⌉

/-- Python `range(a, b, step)` for a positive `step`: the integers
`a, a + step, …` strictly below `b`.  (All call sites in the source use
the positive literal steps `int(1.2) = 1` and `3`.) -/
def pyRange (a b step : ℤ) : List ℤ :=
  if step ≤ 0 then []
  else (List.range ((b - a + step - 1) / step).toNat).map (fun i => a + (i : ℤ) * step)

/-- `scale_coordinates(coords, svg_width, svg_height, target_width=100)`
(svg_converter.py, lines 539–555).  Empty input returns `[]` before any
division; otherwise the Python code computes `target_width / svg_width`
and `target_width / svg_height` unguarded, so a zero dimension raises
`ZeroDivisionError` (modelled as `none`); for nonzero dimensions every
point is multiplied by `min (t / w) (t / h)`. -/
def scale_coordinates (coords : List (ℚ × ℚ)) (svg_width svg_height target_width : ℚ) :
    Option (List (ℚ × ℚ)) :=
  if coords = [] then some []
  else if svg_width = 0 ∨ svg_height = 0 then none
  else
    let scale := min (target_width / svg_width) (target_width / svg_height)
    some (coords.map (fun p => (p.1 * scale, p.2 * scale)))

/-- C1: `scale_coordinates` does NOT guard zero authored dimensions.  On the
non-empty input `[(1, 2)]` with `svg_width = 0` the Python code raises
`ZeroDivisionError` at `scale_x = target_width / svg_width` instead of
returning the input unscaled: the embedded function yields `none`. -/
theorem scale_coordinates_zero_width_crashes :
    scale_coordinates [(1, 2)] 0 10 100 = none := by
  simp [scale_coordinates]

/-- C10: normalization is idempotent.  For any nonzero target size `t`,
scaling with authored width and height both equal to `t` gives the scale
factor `min (t/t) (t/t) = 1` and returns the point sequence unchanged. -/
theorem scale_coordinates_idempotent (coords : List (ℚ × ℚ)) (t : ℚ) (ht : t ≠ 0) :
    scale_coordinates coords t t t = some coords := by
  unfold scale_coordinates
  rcases eq_or_ne coords [] with h | h
  · simp [h]
  · simp only [if_neg h, div_self ht, min_self]
    simp [ht]

/-- Witness for C10 at the default target size 100. -/
theorem scale_coordinates_idempotent_witness :
    scale_coordinates [((3 : ℚ), (4 : ℚ))] 100 100 100 = some [(3, 4)] :=
  scale_coordinates_idempotent [(3, 4)] 100 (by norm_num)

/-- One iteration of the ray-casting loop of `is_point_in_polygon`
(svg_converter.py, lines 638–656), processing the edge `(p1, p2)` at query
point `(x, y)`.  The state is the `inside` flag together with the Python
local `xinters`, which starts the loop unassigned (`none`).  Reading
`xinters` while unassigned (Python `UnboundLocalError`) and reaching the
interpolation with a zero denominator (Python `ZeroDivisionError`) are
both modelled as `none`. -/
def ipipStep (x y : ℚ) (st : Bool × Option ℚ) (p1 p2 : ℚ × ℚ) : Option (Bool × Option ℚ) :=
  if y > min p1.2 p2.2 ∧ y ≤ max p1.2 p2.2 ∧ x ≤ max p1.1 p2.1 then
    match (if p1.2 ≠ p2.2 then
             (if p2.2 - p1.2 = 0 then none
              else some (some ((y - p1.2) * (p2.1 - p1.1) / (p2.2 - p1.2) + p1.1)))
           else some st.2 : Option (Option ℚ)) with
    | none => none
    | some xinters =>
      if p1.1 = p2.1 then some (!st.1, xinters)
      else
        match xinters with
        | none => none
        | some v => some ((if x ≤ v then !st.1 else st.1), xinters)
  else some st

/-- The edge list traversed by `is_point_in_polygon`: `p1` starts at
`polygon[0]` and the loop visits `polygon[i % n]` for `i = 1 … n`, i.e. the
pairs `(polygon[i], polygon[(i+1) % n])` for `i = 0 … n-1`. -/
def ipipEdges (polygon : List (ℚ × ℚ)) : List ((ℚ × ℚ) × (ℚ × ℚ)) :=
  match polygon with
  | [] => []
  | p0 :: rest => polygon.zip (rest ++ [p0])

/-- Folding `ipipStep` over the edges, propagating a crash. -/
def ipipGo (x y : ℚ) : List ((ℚ × ℚ) × (ℚ × ℚ)) → Bool × Option ℚ → Option (Bool × Option ℚ)
  | [], st => some st
  | e :: es, st => (ipipStep x y st e.1 e.2).bind (ipipGo x y es)

/-- `is_point_in_polygon(point, polygon)` with crashes made explicit:
`none` on an empty polygon (Python `polygon[0]` raises `IndexError`), on a
zero-denominator interpolation, or on a read of the unassigned `xinters`. -/
def ipipChecked (point : ℚ × ℚ) (polygon : List (ℚ × ℚ)) : Option Bool :=
  match polygon with
  | [] => none
  | _ :: _ => (ipipGo point.1 point.2 (ipipEdges polygon) (false, none)).map (·.1)

/-- `is_point_in_polygon` as used by the stitch generators.  By
`is_point_in_polygon_total` below the default branch is never taken on the
non-empty polygons the generators pass in. -/
def is_point_in_polygon (point : ℚ × ℚ) (polygon : List (ℚ × ℚ)) : Bool :=
  (ipipChecked point polygon).getD false

theorem ipipStep_isSome (x y : ℚ) (st : Bool × Option ℚ) (p1 p2 : ℚ × ℚ) :
    (ipipStep x y st p1 p2).isSome := by
  unfold ipipStep
  by_cases hc : y > min p1.2 p2.2 ∧ y ≤ max p1.2 p2.2 ∧ x ≤ max p1.1 p2.1
  · have hy : p1.2 ≠ p2.2 := by
      intro he
      rcases hc with ⟨h1, h2, _⟩
      rw [he, min_self] at h1
      rw [he, max_self] at h2
      exact absurd h2 (not_le.mpr h1)
    have hden : ¬(p2.2 - p1.2 = 0) := sub_ne_zero.mpr (Ne.symm hy)
    rw [if_pos hc, if_pos hy, if_neg hden]
    by_cases hx : p1.1 = p2.1 <;> simp [hx]
  · rw [if_neg hc]
    simp

theorem ipipGo_isSome (x y : ℚ) (es : List ((ℚ × ℚ) × (ℚ × ℚ))) (st : Bool × Option ℚ) :
    (ipipGo x y es st).isSome := by
  induction es generalizing st with
  | nil => simp [ipipGo]
  | cons e es ih =>
    unfold ipipGo
    rcases Option.isSome_iff_exists.mp (ipipStep_isSome x y st e.1 e.2) with ⟨st', hst'⟩
    rw [hst', Option.some_bind]
    exact ih st'

/-- C9: on every non-empty polygon — degenerate ones included — the
ray-casting test terminates normally with a boolean: the interpolation is
never a division by zero and the local `xinters` is never read before it
has been assigned (both crash cases are `none` in the model, and the
result is always `some`). -/
theorem is_point_in_polygon_total (point : ℚ × ℚ) (polygon : List (ℚ × ℚ))
    (h : polygon ≠ []) : (ipipChecked point polygon).isSome := by
  match polygon with
  | [] => exact absurd rfl h
  | p0 :: rest =>
    unfold ipipChecked
    simpa using ipipGo_isSome point.1 point.2 (ipipEdges (p0 :: rest)) (false, none)

/-- Witness for C9 on a degenerate (all points collinear) polygon. -/
theorem is_point_in_polygon_total_witness :
    (ipipChecked (0, 0) [(0, 0), (1, 0), (2, 0)]).isSome :=
  is_point_in_polygon_total (0, 0) [(0, 0), (1, 0), (2, 0)] (by simp)

/-- Minimum of the x components of `p :: ps` (Python `min(x for x, y in coords)`). -/
def bboxMinX (p : ℚ × ℚ) (ps : List (ℚ × ℚ)) : ℚ :=
  ps.foldl (fun m q => min m q.1) p.1

/-- Maximum of the x components of `p :: ps`. -/
def bboxMaxX (p : ℚ × ℚ) (ps : List (ℚ × ℚ)) : ℚ :=
  ps.foldl (fun m q => max m q.1) p.1

/-- Minimum of the y components of `p :: ps`. -/
def bboxMinY (p : ℚ × ℚ) (ps : List (ℚ × ℚ)) : ℚ :=
  ps.foldl (fun m q => min m q.2) p.2

/-- Maximum of the y components of `p :: ps`. -/
def bboxMaxY (p : ℚ × ℚ) (ps : List (ℚ × ℚ)) : ℚ :=
  ps.foldl (fun m q => max m q.2) p.2

/-- The inner x-loop shared by the tatami and underlay passes: the points
`(x, y)` for `x` in `range(int(min_x), int(max_x) + 1, step)` that lie
strictly inside the bounding box and pass `is_point_in_polygon`. -/
def rowPoints (coords : List (ℚ × ℚ)) (minx maxx miny maxy y : ℚ) (step : ℤ) : List (ℚ × ℚ) :=
  ((pyRange (pyInt minx) (pyInt maxx + 1) step).map (fun x => ((x : ℚ), y))).filter
    (fun q => decide (minx < q.1 ∧ q.1 < maxx ∧ miny < q.2 ∧ q.2 < maxy)
      && is_point_in_polygon q coords)

/-- The row ordinates `min_y + i * spacing` for
`i` in `range(max(1, int((max_y - min_y) / spacing) + 1))`, cut off by the
`if y > max_y: break` at the top of the loop body. -/
def fillRows (miny maxy spacing : ℚ) : List ℚ :=
  ((List.range (max 1 (pyInt ((maxy - miny) / spacing) + 1)).toNat).map
    (fun i => miny + (i : ℚ) * spacing)).takeWhile (fun y => decide (y ≤ maxy))

/-- `generate_underlay_stitches(coords, angle)` (svg_converter.py, lines
605–636): guard `len(coords) < 3`, then row scan at `underlay_density = 5`
mm with x-step 3.  The `angle` argument is unused by the Python body. -/
def generate_underlay_stitches (coords : List (ℚ × ℚ)) : List (ℚ × ℚ) :=
  if coords.length < 3 then []
  else
    match coords with
    | [] => []
    | p :: ps =>
      let minx := bboxMinX p ps
      let maxx := bboxMaxX p ps
      let miny := bboxMinY p ps
      let maxy := bboxMaxY p ps
      (fillRows miny maxy 5).flatMap (fun y => rowPoints coords minx maxx miny maxy y 3)

/-- `generate_fill_stitches(coords, angle=None, density=None)`
(svg_converter.py, lines 557–603): guard `len(coords) < 3`, underlay pass,
tatami pass at `fill_density = 2.5` mm row spacing with x-step
`int(fill_stitch_length) = int(1.2) = 1`, then the
`max_stitches_per_block = 5000` truncation.  The `angle`/`density`
arguments do not affect the generated points in the Python body. -/
def generate_fill_stitches (coords : List (ℚ × ℚ)) : List (ℚ × ℚ) :=
  if coords.length < 3 then []
  else
    match coords with
    | [] => []
    | p :: ps =>
      let minx := bboxMinX p ps
      let maxx := bboxMaxX p ps
      let miny := bboxMinY p ps
      let maxy := bboxMaxY p ps
      let underlay := generate_underlay_stitches coords
      let fill := (fillRows miny maxy (5/2)).flatMap
        (fun y => rowPoints coords minx maxx miny maxy y (pyInt (6/5)))
      let all := underlay ++ fill
      if 5000 < all.length then all.take 5000 else all

theorem rowPoints_mem_inside {coords : List (ℚ × ℚ)} {minx maxx miny maxy y : ℚ} {step : ℤ}
    {q : ℚ × ℚ} (h : q ∈ rowPoints coords minx maxx miny maxy y step) :
    is_point_in_polygon q coords = true := by
  unfold rowPoints at h
  rw [List.mem_filter] at h
  have h2 := h.2
  simp only [Bool.and_eq_true] at h2
  exact h2.2

theorem generate_underlay_stitches_inside {coords : List (ℚ × ℚ)} {q : ℚ × ℚ}
    (h : q ∈ generate_underlay_stitches coords) : is_point_in_polygon q coords = true := by
  unfold generate_underlay_stitches at h
  split at h
  · simp at h
  · cases coords with
    | nil => simp at h
    | cons p ps =>
      simp only at h
      rcases List.mem_flatMap.mp h with ⟨y, _, hq⟩
      exact rowPoints_mem_inside hq

/-- C5 (amended): every point yielded by `generate_fill_stitches` — underlay
pass and tatami pass alike, also after the 5000-stitch truncation — tests
as inside the boundary polygon under the generator's own ray-casting check.
(The other half of the original claim, that every valid shape with ≥ 3
non-degenerate points yields at least one stitch, is refuted by
`generate_fill_stitches_small_triangle_empty` below.) -/
theorem generate_fill_stitches_points_inside (coords : List (ℚ × ℚ)) (q : ℚ × ℚ)
    (h : q ∈ generate_fill_stitches coords) : is_point_in_polygon q coords = true := by
  unfold generate_fill_stitches at h
  split at h
  · simp at h
  · cases coords with
    | nil => simp at h
    | cons p ps =>
      simp only at h
      have hall : q ∈ generate_underlay_stitches (p :: ps) ++
          (fillRows (bboxMinY p ps) (bboxMaxY p ps) (5/2)).flatMap
            (fun y => rowPoints (p :: ps) (bboxMinX p ps) (bboxMaxX p ps)
              (bboxMinY p ps) (bboxMaxY p ps) y (pyInt (6/5))) := by
        split at h
        · exact List.take_subset _ _ h
        · exact h
      rcases List.mem_append.mp hall with h1 | h2
      · exact generate_underlay_stitches_inside h1
      · rcases List.mem_flatMap.mp h2 with ⟨y, _, hq⟩
        exact rowPoints_mem_inside hq

/-- C5 (counterexample): the unit right triangle — a valid closed shape with
three distinct, non-collinear points enclosing area 1/2 — produces NO fill
stitches: the integer-grid scan finds no point strictly inside the
bounding box, so the claimed "at least 1 stitch point" fails. -/
theorem generate_fill_stitches_small_triangle_empty :
    generate_fill_stitches [(0, 0), (1, 0), (0, 1)] = [] := by
  have hr1 : List.range 1 = [0] := rfl
  have hr2 : List.range 2 = [0, 1] := rfl
  have ht1 : Int.toNat 1 = 1 := rfl
  have ht2 : Int.toNat 2 = 2 := rfl
  norm_num [generate_fill_stitches, generate_underlay_stitches, fillRows, rowPoints,
    bboxMinX, bboxMaxX, bboxMinY, bboxMaxY, pyInt, pyRange, hr1, hr2, ht1, ht2,
    is_point_in_polygon, ipipChecked, ipipEdges, ipipGo, ipipStep,
    List.flatMap_cons, List.flatMap_nil, List.takeWhile,
    min_def, max_def]

/-- Witness for C5: on the triangle (0,0),(4,0),(0,4) the generator yields
the single tatami point (1, 5/2), and the theorem places it inside. -/
theorem generate_fill_stitches_points_inside_witness :
    is_point_in_polygon (1, 5/2) [(0, 0), (4, 0), (0, 4)] = true :=
  generate_fill_stitches_points_inside [(0, 0), (4, 0), (0, 4)] (1, 5/2) (by
    have hr1 : List.range 1 = [0] := rfl
    have hr2 : List.range 2 = [0, 1] := rfl
    have hr5 : List.range 5 = [0, 1, 2, 3, 4] := rfl
    have ht1 : Int.toNat 1 = 1 := rfl
    have ht2 : Int.toNat 2 = 2 := rfl
    have ht5 : Int.toNat 5 = 5 := rfl
    norm_num [generate_fill_stitches, generate_underlay_stitches, fillRows, rowPoints,
      bboxMinX, bboxMaxX, bboxMinY, bboxMaxY, pyInt, pyRange, hr1, hr2, hr5, ht1, ht2, ht5,
      is_point_in_polygon, ipipChecked, ipipEdges, ipipGo, ipipStep,
      List.flatMap_cons, List.flatMap_nil, List.takeWhile,
      min_def, max_def])

/-- Little-endian 16-bit read `struct.unpack('<H', buf[i:i+2])[0]` from a
byte buffer (each entry < 256 at call sites). -/
def le16 (pes : List ℕ) (i : ℕ) : ℕ :=
  pes.getD i 0 + 256 * pes.getD (i + 1) 0

/-- The 4-byte prefix `b'#PES'` that `count_stitches_in_pes` actually
checks with `startswith` (the full 8-byte magic of the format is
`#PES0001`, but the code only compares these 4 bytes). -/
def pesMagic4 : List ℕ := [35, 80, 69, 83]

/-- The scanning `while i < len(pes_content) - 4` loop of
`count_stitches_in_pes` (svg_converter.py, lines 1198–1211): read two
little-endian 16-bit values at `i`; if both fall strictly between 0 and
1000 count one stitch and advance by 4, else advance by 1.  `fuel` bounds
the iteration count structurally; it never runs out when started at
`pes.length`, since `i` strictly increases and the loop stops at
`pes.length - 4`. -/
def scanStitches (pes : List ℕ) : ℕ → ℕ → ℕ
  | 0, _ => 0
  | fuel + 1, i =>
    if i < pes.length - 4 then
      let v1 := le16 pes i
      let v2 := le16 pes (i + 2)
      if 0 < v1 ∧ v1 < 1000 ∧ 0 < v2 ∧ v2 < 1000 then
        scanStitches pes fuel (i + 4) + 1
      else
        scanStitches pes fuel (i + 1)
    else 0

/-- `count_stitches_in_pes(pes_content)` (svg_converter.py, lines
1184–1230), manual counting path.  The code returns 0 for an empty or
shorter-than-8-byte buffer and for a buffer not starting with the 4-byte
`b'#PES'` prefix, then runs the coordinate-pair scan.  (Method 2, the
optional pyembroidery re-count, delegates to the external pyembroidery
library — not part of this repository — and is skipped when that library
is unavailable or fails to parse.) -/
def count_stitches_in_pes (pes : List ℕ) : ℕ :=
  if pes.length < 8 then 0
  else if pes.take 4 ≠ pesMagic4 then 0
  else scanStitches pes pes.length 0

/-- C6 (counterexample): the 8-byte buffer `b'#PES' + 01 00 01 00` is
shorter than the fixed 20-byte header and lacks the 8-byte magic
`#PES0001`, yet the decoder does not reject it: the length guard is
`len < 8` (not `< 20`) and only 4 magic bytes are compared, and the scan
then counts one coordinate-looking pair, returning 1, not 0. -/
theorem count_stitches_short_buffer_not_rejected :
    count_stitches_in_pes [35, 80, 69, 83, 1, 0, 1, 0] = 1 := by decide

/-- C6 (amended): the decoder rejects — returns stitch count 0 — exactly
the buffers shorter than 8 bytes or lacking the 4-byte `b'#PES'` prefix;
the guards are `len < 8` and a 4-byte `startswith`, not the 20-byte
header length and 8-byte magic the original claim states. -/
theorem count_stitches_rejects_short_or_bad_magic (pes : List ℕ)
    (h : pes.length < 8 ∨ pes.take 4 ≠ pesMagic4) :
    count_stitches_in_pes pes = 0 := by
  unfold count_stitches_in_pes
  rcases h with h | h
  · rw [if_pos h]
  · rcases Nat.lt_or_ge pes.length 8 with h8 | h8
    · rw [if_pos h8]
    · rw [if_neg (Nat.not_lt.mpr h8), if_pos h]

/-- Witness for C6 (amended) on the empty buffer. -/
theorem count_stitches_rejects_witness :
    count_stitches_in_pes [] = 0 :=
  count_stitches_rejects_short_or_bad_magic [] (Or.inl (by decide))

/-- Result record of `extract_pes_dimensions` / `assess_embroidery_quality`:
the fields of the returned Python dicts that the claims are about. -/
structure QualityResult where
  level : String
  complexity : String
  width : ℚ
  height : ℚ
  stitch_density : ℚ
deriving Repr, DecidableEq

/-- `extract_pes_dimensions(pes_content)` (svg_converter.py, lines
1287–1312): buffers shorter than 20 bytes give `{width: 0, height: 0}`;
otherwise width and height are the little-endian 16-bit fields at bytes
[16:18) and [18:20), converted from 0.1 mm units to millimeters. -/
def extract_pes_dimensions (pes : List ℕ) : ℚ × ℚ :=
  if pes.length < 20 then (0, 0)
  else ((le16 pes 16 : ℚ) * (1/10), (le16 pes 18 : ℚ) * (1/10))

/-- `assess_embroidery_quality(stitch_count, pes_content)`
(svg_converter.py, lines 1232–1285): complexity/level from the stitch
count thresholds, then the density adjustment — when both extracted
dimensions are positive and the area is positive, a stitch density below
0.1 forces level `basic` and above 2.0 forces level `professional`. -/
def assess_embroidery_quality (stitch_count : ℕ) (pes : List ℕ) : QualityResult :=
  let dims := extract_pes_dimensions pes
  let c : String × String :=
    if stitch_count = 0 then ("none", "invalid")
    else if stitch_count < 20 then ("very_simple", "basic")
    else if stitch_count < 100 then ("simple", "basic")
    else if stitch_count < 300 then ("moderate", "good")
    else if stitch_count < 1000 then ("complex", "high")
    else if stitch_count < 3000 then ("highly_complex", "high")
    else ("highly_complex", "professional")
  let level :=
    if 0 < dims.1 ∧ 0 < dims.2 then
      let area := dims.1 * dims.2
      if 0 < area then
        let d := (stitch_count : ℚ) / area
        if d < 1/10 then "basic"
        else if 2 < d then "professional"
        else c.2
      else c.2
    else c.2
  { level := level
    complexity := c.1
    width := dims.1
    height := dims.2
    stitch_density := (stitch_count : ℚ) / max (dims.1 * dims.2) 1 }

/-- A 20-byte buffer: the 4-byte `#PES` prefix followed by sixteen 0xFF
bytes.  Every 16-bit window in the scan is ≥ 1000, so the decoded stitch
count is 0, while the header dimension fields at bytes [16:20) are
0xFFFF, i.e. positive extracted dimensions. -/
def pesZeroStitchBuf : List ℕ :=
  [35, 80, 69, 83, 255, 255, 255, 255, 255, 255, 255, 255,
   255, 255, 255, 255, 255, 255, 255, 255]

/-- C2: a buffer whose decoded stitch count is exactly 0 but whose header
carries positive dimensions is assessed at quality level `basic`, not
`invalid`: the density adjustment (density 0/area = 0 < 0.1 forces level
`basic`) overwrites the `invalid` level assigned for stitch count 0.
Complexity is still `none`. -/
theorem assess_quality_zero_count_becomes_basic :
    count_stitches_in_pes pesZeroStitchBuf = 0 ∧
    (assess_embroidery_quality (count_stitches_in_pes pesZeroStitchBuf)
        pesZeroStitchBuf).level = "basic" ∧
    (assess_embroidery_quality (count_stitches_in_pes pesZeroStitchBuf)
        pesZeroStitchBuf).complexity = "none" := by
  have hc : count_stitches_in_pes pesZeroStitchBuf = 0 := by decide
  have h16 : le16 pesZeroStitchBuf 16 = 65535 := by decide
  have h18 : le16 pesZeroStitchBuf 18 = 65535 := by decide
  have hlen : ¬(pesZeroStitchBuf.length < 20) := by decide
  refine ⟨hc, ?_, ?_⟩ <;>
    rw [hc] <;>
    norm_num [assess_embroidery_quality, extract_pes_dimensions, h16, h18, hlen]

/-- A stitch command of the pattern, as appended by
`pattern.add_stitch_absolute(x, y, type)`. -/
inductive Cmd where
  | jump (x y : ℚ)
  | stitch (x y : ℚ)
  | colorChange (x y : ℚ)
  | trim (x y : ℚ)
  | stop (x y : ℚ)
deriving Repr, DecidableEq

/-- A stitch block dict as built by `add_svg_to_pattern` (svg_converter.py,
lines 824–846): keys `stitches`, `color`, `type`, `start_pos`.  Python
compares blocks (`block != stitch_blocks[-1]`) by dict VALUE equality over
all four keys, mirrored by `DecidableEq`. -/
structure StitchBlock where
  stitches : List (ℚ × ℚ)
  color : String
  btype : String
  start_pos : ℚ × ℚ
deriving Repr, DecidableEq

def isColorChangeCmd : Cmd → Bool
  | .colorChange _ _ => true
  | _ => false

def isJumpCmd : Cmd → Bool
  | .jump _ _ => true
  | _ => false

def isStitchCmd : Cmd → Bool
  | .stitch _ _ => true
  | _ => false

def isTrimCmd : Cmd → Bool
  | .trim _ _ => true
  | _ => false

def isEndCmd : Cmd → Bool
  | .stop _ _ => true
  | _ => false

/-- The commands for one block's point list: the first point as a Jump,
subsequent points as Stitch.  (The NaN/Infinity validation of the Python
loop never fires in the `ℚ` model, where every coordinate is finite.) -/
def stitchCmds : List (ℚ × ℚ) → List Cmd
  | [] => []
  | p :: rest => Cmd.jump p.1 p.2 :: rest.map (fun q => Cmd.stitch q.1 q.2)

/-- The per-block emission loop of `add_svg_to_pattern` (svg_converter.py,
lines 903–929).  `cur` is `current_color` (initially Python `None`);
`lastXY` is the pair of loop variables `x, y`, which persist across blocks
and are unbound (`none`) until some block's stitch loop has run — emitting
the between-blocks Trim with `x, y` unbound would raise `NameError`,
modelled as `none`.  A Trim is emitted after a block exactly when the
block is not value-equal to the final block `lastBlock`. -/
def emitBlocksGo (lastBlock : StitchBlock) (cur : Option String) (lastXY : Option (ℚ × ℚ)) :
    List StitchBlock → Option (List Cmd)
  | [] => some []
  | b :: bs =>
    let cc := if cur ≠ some b.color then [Cmd.colorChange 0 0] else []
    let lastXY' := match b.stitches.getLast? with
      | some p => some p
      | none => lastXY
    let trimPart : Option (List Cmd) :=
      if b ≠ lastBlock then
        match lastXY' with
        | none => none
        | some p => some [Cmd.trim p.1 p.2]
      else some []
    trimPart.bind (fun tp =>
      (emitBlocksGo lastBlock (some b.color) lastXY' bs).map
        (fun rest => cc ++ stitchCmds b.stitches ++ tp ++ rest))

/-- The full block-loop command stream of `add_svg_to_pattern`
(svg_converter.py, lines 903–934): the per-block loop followed by the
final End at the last block's last stitch
(`stitch_blocks[-1]['stitches'][-1]`, an `IndexError` — modelled `none` —
when that stitch list is empty).  An empty block list emits nothing (the
`if stitch_blocks:` guard). -/
def bodyCmds (blocks : List StitchBlock) : Option (List Cmd) :=
  match blocks.getLast? with
  | none => some []
  | some lastBlock =>
    (emitBlocksGo lastBlock none none blocks).bind (fun cs =>
      match lastBlock.stitches.getLast? with
      | none => none
      | some p => some (cs ++ [Cmd.stop p.1 p.2]))

/-- The bounding-box preamble of `add_svg_to_pattern` (svg_converter.py,
lines 865–901), emitted before the block loop whenever the blocks carry
at least one stitch: compute the bounding box of all stitches, expand
symmetrically around the center to a 10 mm minimum in each dimension, and
emit a Jump, four corner Stitches and a Trim along it. -/
def preambleCmds (blocks : List StitchBlock) : List Cmd :=
  match blocks.flatMap (·.stitches) with
  | [] => []
  | p :: ps =>
    let minx := bboxMinX p ps
    let maxx := bboxMaxX p ps
    let miny := bboxMinY p ps
    let maxy := bboxMaxY p ps
    let cx := (minx + maxx) / 2
    let cy := (miny + maxy) / 2
    let minx' := if maxx - minx < 10 then cx - 5 else minx
    let maxx' := if maxx - minx < 10 then cx + 5 else maxx
    let miny' := if maxy - miny < 10 then cy - 5 else miny
    let maxy' := if maxy - miny < 10 then cy + 5 else maxy
    [Cmd.jump minx' miny', Cmd.stitch maxx' miny', Cmd.stitch maxx' maxy',
     Cmd.stitch minx' maxy', Cmd.stitch minx' miny', Cmd.trim minx' miny']

/-- The complete command stream appended to the pattern by
`add_svg_to_pattern` for a given (already optimized) block list:
bounding-box preamble followed by the block loop and End. -/
def emitBlocks (blocks : List StitchBlock) : Option (List Cmd) :=
  (bodyCmds blocks).map (fun cs => preambleCmds blocks ++ cs)

/-- Number of color switches the emission loop performs along a block color
sequence, starting from `current_color = cur`. -/
def switches : Option String → List String → ℕ
  | _, [] => 0
  | cur, c :: rest => (if cur ≠ some c then 1 else 0) + switches (some c) rest

theorem switches_all_eq (c : String) (l : List String) (h : ∀ x ∈ l, x = c) :
    switches (some c) l = 0 := by
  induction l with
  | nil => rfl
  | cons x rest ih =>
    have hx : x = c := h x (by simp)
    subst hx
    have h' := ih (fun y hy => h y (by simp [hy]))
    simp [switches, h']

theorem switches_none_all_eq (c : String) (l : List String) (hne : l ≠ [])
    (h : ∀ x ∈ l, x = c) : switches none l = 1 := by
  cases l with
  | nil => exact absurd rfl hne
  | cons x rest =>
    have hx : x = c := h x (by simp)
    have h' : switches (some x) rest = 0 := by
      rw [hx]
      exact switches_all_eq c rest (fun y hy => h y (by simp [hy]))
    simp [switches, h']

theorem stitchCmds_counts (p : ℚ × ℚ) (rest : List (ℚ × ℚ)) :
    (stitchCmds (p :: rest)).countP isColorChangeCmd = 0 ∧
    (stitchCmds (p :: rest)).countP isJumpCmd = 1 ∧
    (stitchCmds (p :: rest)).countP isStitchCmd = rest.length ∧
    (stitchCmds (p :: rest)).countP isTrimCmd = 0 ∧
    (stitchCmds (p :: rest)).countP isEndCmd = 0 := by
  simp [stitchCmds, List.countP_cons, List.countP_map, isColorChangeCmd, isJumpCmd,
    isStitchCmd, isTrimCmd, isEndCmd, Function.comp]

/-- Command counts of the per-block emission loop when every block has a
non-empty stitch list: the loop never crashes, emits `switches cur colors`
ColorChanges, one Jump per block, `|stitches| - 1` Stitches per block, a
Trim for exactly the blocks not value-equal to the final block, and no
End. -/
theorem emitBlocksGo_counts (lastB : StitchBlock) (bs : List StitchBlock)
    (cur : Option String) (xy : Option (ℚ × ℚ))
    (hst : ∀ b ∈ bs, b.stitches ≠ []) :
    ∃ cs, emitBlocksGo lastB cur xy bs = some cs ∧
      cs.countP isColorChangeCmd = switches cur (bs.map (·.color)) ∧
      cs.countP isJumpCmd = bs.length ∧
      cs.countP isStitchCmd = (bs.map (fun b => b.stitches.length - 1)).sum ∧
      cs.countP isTrimCmd = bs.countP (fun b => decide (b ≠ lastB)) ∧
      cs.countP isEndCmd = 0 := by
  induction bs generalizing cur xy with
  | nil => exact ⟨[], rfl, rfl, rfl, rfl, rfl, rfl⟩
  | cons b bs ih =>
    obtain ⟨p, rest, hps⟩ : ∃ p rest, b.stitches = p :: rest := by
      cases hb : b.stitches with
      | nil => exact absurd hb (hst b (by simp))
      | cons p rest => exact ⟨p, rest, rfl⟩
    have hbne : b.stitches ≠ [] := by simp [hps]
    have hglast : b.stitches.getLast? = some (b.stitches.getLast hbne) :=
      List.getLast?_eq_getLast _ hbne
    obtain ⟨cs, hcs, hcc, hj, hs, ht, he⟩ :=
      ih (some b.color) (some (b.stitches.getLast hbne)) (fun x hx => hst x (by simp [hx]))
    have hsc := stitchCmds_counts p rest
    rw [← hps] at hsc
    obtain ⟨c1, c2, c3, c4, c5⟩ := hsc
    have hslen : b.stitches.length - 1 = rest.length := by simp [hps]
    by_cases hbl : b = lastB
    · subst hbl
      have hrun : emitBlocksGo b cur xy (b :: bs) =
          some ((if cur ≠ some b.color then [Cmd.colorChange 0 0] else []) ++
            stitchCmds b.stitches ++ [] ++ cs) := by
        simp only [emitBlocksGo, hglast, if_neg (not_not_intro rfl)]
        rw [Option.some_bind, hcs]
        rfl
      refine ⟨_, hrun, ?_, ?_, ?_, ?_, ?_⟩ <;>
        simp only [List.countP_append, List.countP_nil, c1, c2, c3, c4, c5,
          hcc, hj, hs, ht, he, List.map_cons, List.sum_cons, List.length_cons,
          List.countP_cons, switches, hslen, Nat.add_zero, Nat.zero_add] <;>
        by_cases hc : cur ≠ some b.color <;>
        simp [hc, isColorChangeCmd, isJumpCmd, isStitchCmd, isTrimCmd, isEndCmd,
          Nat.add_comm]
    · have hrun : emitBlocksGo lastB cur xy (b :: bs) =
          some ((if cur ≠ some b.color then [Cmd.colorChange 0 0] else []) ++
            stitchCmds b.stitches ++
            [Cmd.trim (b.stitches.getLast hbne).1 (b.stitches.getLast hbne).2] ++ cs) := by
        simp only [emitBlocksGo, hglast, if_pos hbl]
        rw [Option.some_bind, hcs]
        rfl
      refine ⟨_, hrun, ?_, ?_, ?_, ?_, ?_⟩ <;>
        simp only [List.countP_append, List.countP_nil, c1, c2, c3, c4, c5,
          hcc, hj, hs, ht, he, List.map_cons, List.sum_cons, List.length_cons,
          List.countP_cons, switches, hslen, Nat.add_zero, Nat.zero_add] <;>
        by_cases hc : cur ≠ some b.color <;>
        simp [hc, hbl, isColorChangeCmd, isJumpCmd, isStitchCmd, isTrimCmd, isEndCmd,
          Nat.add_comm]

theorem preambleCmds_colorChange_free (blocks : List StitchBlock) :
    (preambleCmds blocks).countP isColorChangeCmd = 0 := by
  unfold preambleCmds
  cases blocks.flatMap (·.stitches) with
  | nil => rfl
  | cons p ps => simp [isColorChangeCmd]

/-- C3 (amended): in the block-loop command stream, a ColorChange is emitted
before a block exactly when its color differs from `current_color`, which
starts as Python `None` — so the FIRST block always gets one.  For a
non-empty all-one-color block sequence the stream therefore contains
exactly ONE ColorChange (not zero, as the original claim states); each
block still contributes exactly one Jump (its first point) and
`|stitches| - 1` Stitches, and the bounding-box preamble of the full
stream contains no ColorChange. -/
theorem bodyCmds_single_color_one_colorChange (blocks : List StitchBlock) (c : String)
    (hne : blocks ≠ []) (hcol : ∀ b ∈ blocks, b.color = c)
    (hst : ∀ b ∈ blocks, b.stitches ≠ []) :
    ∃ cs, bodyCmds blocks = some cs ∧
      cs.countP isColorChangeCmd = 1 ∧
      cs.countP isJumpCmd = blocks.length ∧
      cs.countP isStitchCmd = (blocks.map (fun b => b.stitches.length - 1)).sum ∧
      emitBlocks blocks = some (preambleCmds blocks ++ cs) ∧
      (preambleCmds blocks).countP isColorChangeCmd = 0 := by
  have hlast : blocks.getLast? = some (blocks.getLast hne) :=
    List.getLast?_eq_getLast _ hne
  obtain ⟨cs0, hrun, hcc, hj, hs, _, _⟩ :=
    emitBlocksGo_counts (blocks.getLast hne) blocks none none hst
  have hlmem : blocks.getLast hne ∈ blocks := List.getLast_mem hne
  have hlne : (blocks.getLast hne).stitches ≠ [] := hst _ hlmem
  have hlget : (blocks.getLast hne).stitches.getLast? =
      some ((blocks.getLast hne).stitches.getLast hlne) :=
    List.getLast?_eq_getLast _ hlne
  have hbody : bodyCmds blocks =
      some (cs0 ++ [Cmd.stop ((blocks.getLast hne).stitches.getLast hlne).1
        ((blocks.getLast hne).stitches.getLast hlne).2]) := by
    simp only [bodyCmds, hlast, hrun, Option.some_bind, hlget]
  have hccval : switches none (blocks.map (·.color)) = 1 := by
    apply switches_none_all_eq c
    · simpa using hne
    · intro x hx
      rcases List.mem_map.mp hx with ⟨b, hb, hb2⟩
      rw [← hb2]
      exact hcol b hb
  refine ⟨_, hbody, ?_, ?_, ?_, ?_, preambleCmds_colorChange_free blocks⟩
  · simp [List.countP_append, hcc, hccval, isColorChangeCmd, List.countP_cons]
  · simp [List.countP_append, hj, isJumpCmd, List.countP_cons]
  · simp [List.countP_append, hs, isStitchCmd, List.countP_cons]
  · unfold emitBlocks
    rw [hbody]
    rfl

/-- C7 (amended): for a non-empty block sequence whose blocks all carry at
least one stitch, the block-loop stream emits a Trim after a block exactly
when the block is not VALUE-equal to the final block (Python compares
`block != stitch_blocks[-1]` by dict equality, so a duplicate of the last
block loses its separating Trim — see
`no_trim_between_duplicate_blocks`), never after the last block itself,
and emits End exactly once, as the very last command. -/
theorem bodyCmds_trim_end_structure (blocks : List StitchBlock)
    (hne : blocks ≠ []) (hst : ∀ b ∈ blocks, b.stitches ≠ []) :
    ∃ cs, bodyCmds blocks = some cs ∧
      cs.countP isTrimCmd = blocks.countP (fun b => decide (b ≠ blocks.getLast hne)) ∧
      cs.countP isEndCmd = 1 ∧
      (∃ x y, cs.getLast? = some (Cmd.stop x y)) := by
  have hlast : blocks.getLast? = some (blocks.getLast hne) :=
    List.getLast?_eq_getLast _ hne
  obtain ⟨cs0, hrun, _, _, _, ht, he⟩ :=
    emitBlocksGo_counts (blocks.getLast hne) blocks none none hst
  have hlmem : blocks.getLast hne ∈ blocks := List.getLast_mem hne
  have hlne : (blocks.getLast hne).stitches ≠ [] := hst _ hlmem
  have hlget : (blocks.getLast hne).stitches.getLast? =
      some ((blocks.getLast hne).stitches.getLast hlne) :=
    List.getLast?_eq_getLast _ hlne
  have hbody : bodyCmds blocks =
      some (cs0 ++ [Cmd.stop ((blocks.getLast hne).stitches.getLast hlne).1
        ((blocks.getLast hne).stitches.getLast hlne).2]) := by
    simp only [bodyCmds, hlast, hrun, Option.some_bind, hlget]
  refine ⟨_, hbody, ?_, ?_, ?_⟩
  · simp [List.countP_append, ht, isTrimCmd, List.countP_cons]
  · simp [List.countP_append, he, isEndCmd, List.countP_cons]
  · exact ⟨_, _, List.getLast?_concat _⟩

/-- A concrete fill block used in the encoder counterexamples and
witnesses. -/
def sampleBlock : StitchBlock :=
  { stitches := [(0, 0), (1, 1)], color := "black", btype := "fill", start_pos := (0, 0) }

/-- A second concrete block with a different color and stitches. -/
def sampleBlock2 : StitchBlock :=
  { stitches := [(2, 2), (3, 3)], color := "red", btype := "fill", start_pos := (2, 2) }

/-- C3 (counterexample): a single-block — hence single-color — sequence
yields a command stream containing one ColorChange, not zero: the
`current_color = None` initialization makes the first block always emit
one. -/
theorem emitted_stream_single_color_has_colorChange :
    (emitBlocks [sampleBlock]).map (List.countP isColorChangeCmd) = some 1 := by
  norm_num [emitBlocks, bodyCmds, emitBlocksGo, preambleCmds, stitchCmds, sampleBlock,
    bboxMinX, bboxMaxX, bboxMinY, bboxMaxY, isColorChangeCmd, List.countP_cons,
    List.countP_append]
  rfl

/-- Witness for C3 (amended) on the single-block sequence. -/
theorem bodyCmds_single_color_one_colorChange_witness :
    ∃ cs, bodyCmds [sampleBlock] = some cs ∧
      cs.countP isColorChangeCmd = 1 ∧
      cs.countP isJumpCmd = [sampleBlock].length ∧
      cs.countP isStitchCmd = ([sampleBlock].map (fun b => b.stitches.length - 1)).sum ∧
      emitBlocks [sampleBlock] = some (preambleCmds [sampleBlock] ++ cs) ∧
      (preambleCmds [sampleBlock]).countP isColorChangeCmd = 0 :=
  bodyCmds_single_color_one_colorChange [sampleBlock] "black" (by simp)
    (by simp [sampleBlock]) (by simp [sampleBlock])

/-- C7 (counterexample): two VALUE-equal consecutive blocks produce a
stream with NO Trim between them — the full block-loop stream is exactly
ColorChange, Jump, Stitch, Jump, Stitch, End, with the two blocks'
segments adjacent and zero Trims anywhere. -/
theorem no_trim_between_duplicate_blocks :
    bodyCmds [sampleBlock, sampleBlock] =
      some [Cmd.colorChange 0 0, Cmd.jump 0 0, Cmd.stitch 1 1,
            Cmd.jump 0 0, Cmd.stitch 1 1, Cmd.stop 1 1] ∧
    List.countP isTrimCmd [Cmd.colorChange 0 0, Cmd.jump 0 0, Cmd.stitch 1 1,
            Cmd.jump 0 0, Cmd.stitch 1 1, Cmd.stop 1 1] = 0 := by
  constructor
  · norm_num [bodyCmds, emitBlocksGo, stitchCmds, sampleBlock]
    rfl
  · simp [isTrimCmd, List.countP_cons]

/-- Witness for C7 (amended) on two distinct blocks. -/
theorem bodyCmds_trim_end_structure_witness :
    ∃ cs, bodyCmds [sampleBlock, sampleBlock2] = some cs ∧
      cs.countP isTrimCmd =
        [sampleBlock, sampleBlock2].countP
          (fun b => decide (b ≠ [sampleBlock, sampleBlock2].getLast (by simp))) ∧
      cs.countP isEndCmd = 1 ∧
      (∃ x y, cs.getLast? = some (Cmd.stop x y)) :=
  bodyCmds_trim_end_structure [sampleBlock, sampleBlock2] (by simp)
    (by simp [sampleBlock, sampleBlock2])

/-- Euclidean distance `math.sqrt((x2 - x1)**2 + (y2 - y1)**2)` between two
points, with Python floats idealized as reals. -/
noncomputable def pdist (p q : ℝ × ℝ) : ℝ :=
  Real.sqrt ((q.1 - p.1) ^ 2 + (q.2 - p.2) ^ 2)

/-- Python `int()` on a real: truncation toward zero. -/
noncomputable def pyIntR (x : ℝ) : ℤ :=
  if 0 ≤ x then ⌊x⌋ else ⌈x⌉

/-- The point at parameter `t` along the segment from `p` to `q`
(`x1 + (x2 - x1) * t`, `y1 + (y2 - y1) * t`). -/
noncomputable def interpPoint (p q : ℝ × ℝ) (t : ℝ) : ℝ × ℝ :=
  (p.1 + (q.1 - p.1) * t, p.2 + (q.2 - p.2) * t)

/-- The intermediate points `generate_running_stitches` inserts on one
segment (svg_converter.py, lines 1063–1071): when the segment is longer
than `stitch_length`, the points at `t = j / (num + 1)` for
`j = 1 … num`, with `num = int(distance / stitch_length)`. -/
noncomputable def segIntermediates (cur target : ℝ × ℝ) (s : ℝ) : List (ℝ × ℝ) :=
  if s < pdist cur target then
    (List.range (pyIntR (pdist cur target / s)).toNat).map
      (fun j : ℕ => interpPoint cur target
        (((j : ℝ) + 1) / (((pyIntR (pdist cur target / s)).toNat : ℝ) + 1)))
  else []

/-- The segment loop of `generate_running_stitches`: for each further
input point, the inserted intermediates followed by the point itself. -/
noncomputable def runGo (s : ℝ) : ℝ × ℝ → List (ℝ × ℝ) → List (ℝ × ℝ)
  | _, [] => []
  | cur, q :: rest => segIntermediates cur q s ++ q :: runGo s q rest

/-- `generate_running_stitches(coords, stitch_length=2.5)`
(svg_converter.py, lines 1051–1076): fewer than two points give `[]`;
otherwise the first point followed by, per segment, the evenly spaced
intermediates and the segment's endpoint. -/
noncomputable def generate_running_stitches (coords : List (ℝ × ℝ)) (s : ℝ) : List (ℝ × ℝ) :=
  if coords.length < 2 then []
  else
    match coords with
    | [] => []
    | c :: rest => c :: runGo s c rest

theorem pdist_interpPoint (p q : ℝ × ℝ) (a b : ℝ) :
    pdist (interpPoint p q a) (interpPoint p q b) = |b - a| * pdist p q := by
  unfold pdist interpPoint
  have h1 : (p.1 + (q.1 - p.1) * b - (p.1 + (q.1 - p.1) * a)) ^ 2 +
      (p.2 + (q.2 - p.2) * b - (p.2 + (q.2 - p.2) * a)) ^ 2 =
      (b - a) ^ 2 * ((q.1 - p.1) ^ 2 + (q.2 - p.2) ^ 2) := by ring
  rw [h1, Real.sqrt_mul (sq_nonneg _), Real.sqrt_sq_eq_abs]

theorem interpPoint_zero (p q : ℝ × ℝ) : interpPoint p q 0 = p := by
  unfold interpPoint
  simp

theorem interpPoint_one (p q : ℝ × ℝ) : interpPoint p q 1 = q := by
  unfold interpPoint
  ext <;> ring

/-- The expanded form of one segment of the output: endpoint, inserted
intermediates, endpoint — all uniformly spaced interpolation points. -/
theorem seg_cons_append_eq_map (cur q : ℝ × ℝ) (s : ℝ) (hd : s < pdist cur q) :
    cur :: segIntermediates cur q s ++ [q] =
      (List.range ((pyIntR (pdist cur q / s)).toNat + 2)).map
        (fun k : ℕ => interpPoint cur q ((k : ℝ) / (((pyIntR (pdist cur q / s)).toNat : ℝ) + 1))) := by
  set n := (pyIntR (pdist cur q / s)).toNat with hn
  rw [show n + 2 = (n + 1) + 1 by omega, List.range_succ, List.map_append,
    List.range_succ_eq_map, List.map_cons, List.map_map]
  congr 1
  · congr 1
    · rw [show ((0 : ℕ) : ℝ) / ((n : ℝ) + 1) = 0 by simp, interpPoint_zero]
    · rw [segIntermediates, if_pos hd, ← hn]
      apply List.map_congr_left
      intro j hj
      simp only [Function.comp_apply]
      congr 1
      push_cast
      ring
  · simp only [List.map_cons, List.map_nil]
    have hnn : ((n : ℝ) + 1) ≠ 0 := by positivity
    have hc : (((n + 1 : ℕ)) : ℝ) = (n : ℝ) + 1 := by push_cast; ring
    rw [hc, div_self hnn, interpPoint_one]

theorem seg_chain (cur q : ℝ × ℝ) (s : ℝ) (hs : 0 < s) :
    List.Chain' (fun a b => pdist a b ≤ s) (cur :: segIntermediates cur q s ++ [q]) := by
  by_cases hd : s < pdist cur q
  · rw [seg_cons_append_eq_map cur q s hd]
    set n := (pyIntR (pdist cur q / s)).toNat with hn
    have hd0 : 0 < pdist cur q := hs.trans hd
    have hds : 0 ≤ pdist cur q / s := by positivity
    have hfl : pyIntR (pdist cur q / s) = ⌊pdist cur q / s⌋ := if_pos hds
    have hcast : ((n : ℝ)) = (⌊pdist cur q / s⌋ : ℝ) := by
      rw [hn, hfl]
      have h0 : (⌊pdist cur q / s⌋.toNat : ℤ) = ⌊pdist cur q / s⌋ :=
        Int.toNat_of_nonneg (Int.floor_nonneg.mpr hds)
      exact_mod_cast congrArg (fun z : ℤ => (z : ℝ)) h0
    have hgap : pdist cur q / ((n : ℝ) + 1) < s := by
      rw [div_lt_iff₀ (by positivity)]
      have h2 : pdist cur q / s < (n : ℝ) + 1 := by
        rw [hcast]
        exact Int.lt_floor_add_one _
      calc pdist cur q = (pdist cur q / s) * s := by field_simp
        _ < ((n : ℝ) + 1) * s := by
            exact mul_lt_mul_of_pos_right h2 hs
        _ = s * ((n : ℝ) + 1) := by ring
    rw [List.chain'_map, show n + 2 = (n + 1) + 1 by omega, List.chain'_range_succ]
    intro m hm
    have hstep : pdist (interpPoint cur q ((m : ℝ) / ((n : ℝ) + 1)))
        (interpPoint cur q (((m + 1 : ℕ) : ℝ) / ((n : ℝ) + 1))) =
        pdist cur q / ((n : ℝ) + 1) := by
      rw [pdist_interpPoint]
      have : |((m + 1 : ℕ) : ℝ) / ((n : ℝ) + 1) - (m : ℝ) / ((n : ℝ) + 1)| =
          1 / ((n : ℝ) + 1) := by
        rw [div_sub_div_same]
        push_cast
        rw [show (m : ℝ) + 1 - m = 1 by ring]
        rw [abs_of_pos (by positivity)]
      rw [this]
      ring
    rw [hstep]
    exact le_of_lt hgap
  · have hseg : segIntermediates cur q s = [] := by rw [segIntermediates, if_neg hd]
    rw [hseg]
    simp only [List.cons_append, List.nil_append, List.chain'_cons, List.chain'_singleton,
      and_true]
    exact not_lt.mp hd

theorem runGo_chain (s : ℝ) (hs : 0 < s) (rest : List (ℝ × ℝ)) (cur : ℝ × ℝ) :
    List.Chain' (fun a b => pdist a b ≤ s) (cur :: runGo s cur rest) := by
  induction rest generalizing cur with
  | nil => simp [runGo]
  | cons q rest ih =>
    have hsplit : cur :: runGo s cur (q :: rest) =
        (cur :: segIntermediates cur q s) ++ (q :: runGo s q rest) := by
      simp [runGo]
    rw [hsplit]
    have hseg := seg_chain cur q s hs
    obtain ⟨h1, _, h3⟩ := List.chain'_append.mp hseg
    apply List.chain'_append.mpr
    refine ⟨h1, ih q, ?_⟩
    intro x hx y hy
    simp only [List.head?_cons, Option.mem_def, Option.some.injEq] at hy
    subst hy
    exact h3 x hx q (by simp)

theorem runGo_sublist (s : ℝ) (rest : List (ℝ × ℝ)) (cur : ℝ × ℝ) :
    rest.Sublist (runGo s cur rest) := by
  induction rest generalizing cur with
  | nil => simp [runGo]
  | cons q rest ih =>
    have : (q :: rest).Sublist (q :: runGo s q rest) := List.Sublist.cons₂ q (ih q)
    exact this.trans (List.sublist_append_right _ _)

/-- C8: with at least two input points and a positive stitch length, the
output of `generate_running_stitches` keeps every original input point in
order (the input is a sublist of the output), and no two consecutive
output points are farther apart than the stitch length: on each segment
longer than `s` the `int(distance/s)` evenly spaced intermediates bring
every gap down to `distance/(num+1) < s`. -/
theorem generate_running_stitches_spec (coords : List (ℝ × ℝ)) (s : ℝ)
    (hlen : 2 ≤ coords.length) (hs : 0 < s) :
    coords.Sublist (generate_running_stitches coords s) ∧
    List.Chain' (fun a b => pdist a b ≤ s) (generate_running_stitches coords s) := by
  unfold generate_running_stitches
  rw [if_neg (by omega)]
  match coords, hlen with
  | c :: rest, _ =>
    exact ⟨List.Sublist.cons₂ c (runGo_sublist s rest c), runGo_chain s hs rest c⟩

/-- Witness for C8 on the segment (0,0)–(6,0) with the default 2.5 mm
stitch length. -/
theorem generate_running_stitches_spec_witness :
    ([((0 : ℝ), (0 : ℝ)), (6, 0)]).Sublist
        (generate_running_stitches [((0 : ℝ), (0 : ℝ)), (6, 0)] (5/2)) ∧
    List.Chain' (fun a b => pdist a b ≤ (5/2 : ℝ))
        (generate_running_stitches [((0 : ℝ), (0 : ℝ)), (6, 0)] (5/2)) :=
  generate_running_stitches_spec [(0, 0), (6, 0)] (5/2) (by simp) (by norm_num)

/-- The consecutive-point segments `(coords[j], coords[j+1])` traversed by
the inner loop of `generate_satin_stitches`. -/
noncomputable def satinSegs (coords : List (ℝ × ℝ)) : List ((ℝ × ℝ) × (ℝ × ℝ)) :=
  coords.zip coords.tail

/-- The accumulated path length of `generate_satin_stitches`
(svg_converter.py, lines 664–669). -/
noncomputable def satinTotal (coords : List (ℝ × ℝ)) : ℝ :=
  (satinSegs coords).foldl (fun acc e => acc + pdist e.1 e.2) 0

/-- The inner `for j` loop of `generate_satin_stitches` (svg_converter.py,
lines 684–711) at zigzag index `i`: walk the segments accumulating
`current_length` until `current + seg ≥ target`, then interpolate and
offset perpendicular by `width * 0.5 * (±1)`.  `none` models the Python
`ZeroDivisionError` when the selected segment has zero length (the
`local_t` division); `some none` is a loop that breaks without appending
(zero `length`) or exhausts the segments without reaching the break. -/
noncomputable def satinFind (width target : ℝ) (i : ℕ) :
    List ((ℝ × ℝ) × (ℝ × ℝ)) → ℝ → Option (Option (ℝ × ℝ))
  | [], _ => some none
  | e :: es, current =>
    if target ≤ current + pdist e.1 e.2 then
      if pdist e.1 e.2 = 0 then none
      else
        let lt := (target - current) / pdist e.1 e.2
        let x := e.1.1 + (e.2.1 - e.1.1) * lt
        let y := e.1.2 + (e.2.2 - e.1.2) * lt
        let dx := e.2.1 - e.1.1
        let dy := e.2.2 - e.1.2
        let len := Real.sqrt (dx ^ 2 + dy ^ 2)
        if 0 < len then
          some (some (x + (-dy / len) * (width * (1/2) * (if i % 2 = 0 then 1 else -1)),
                      y + (dx / len) * (width * (1/2) * (if i % 2 = 0 then 1 else -1))))
        else some none
    else satinFind width target i es (current + pdist e.1 e.2)

/-- The outer `for i` loop of `generate_satin_stitches`, collecting the
appended zigzag points and propagating a crash. -/
noncomputable def satinOuter (f : ℕ → Option (Option (ℝ × ℝ))) : List ℕ → Option (List (ℝ × ℝ))
  | [] => some []
  | i :: is =>
    match f i with
    | none => none
    | some none => satinOuter f is
    | some (some p) => (satinOuter f is).map (p :: ·)

/-- One outer iteration: parameter `t = i / (num - 1)` (0 when `num ≤ 1`),
target length `t * total`, then the inner walk from `current = 0`. -/
noncomputable def satinPointAt (coords : List (ℝ × ℝ)) (width : ℝ) (num : ℕ) (i : ℕ) :
    Option (Option (ℝ × ℝ)) :=
  satinFind width ((if 1 < num then (i : ℝ) / ((num : ℝ) - 1) else 0) * satinTotal coords)
    i (satinSegs coords) 0

/-- `generate_satin_stitches(coords, width=2)` (svg_converter.py, lines
658–714): fewer than 2 points give `[]`; otherwise
`num = max(2, int(total / satin_stitch_length))` zigzag iterations with
`satin_stitch_length = 1.5`. -/
noncomputable def generate_satin_stitches (coords : List (ℝ × ℝ)) (width : ℝ) :
    Option (List (ℝ × ℝ)) :=
  if coords.length < 2 then some []
  else
    satinOuter (satinPointAt coords width ((max 2 (pyIntR (satinTotal coords / (3/2)))).toNat))
      (List.range ((max 2 (pyIntR (satinTotal coords / (3/2)))).toNat))

theorem satinOuter_isSome (f : ℕ → Option (Option (ℝ × ℝ))) (l : List ℕ)
    (h : ∀ i ∈ l, (f i).isSome) : (satinOuter f l).isSome := by
  induction l with
  | nil => simp [satinOuter]
  | cons i is ih =>
    rcases Option.isSome_iff_exists.mp (h i (by simp)) with ⟨o, ho⟩
    have hrest := ih (fun j hj => h j (by simp [hj]))
    cases o with
    | none => simpa [satinOuter, ho] using hrest
    | some p =>
      simp only [satinOuter, ho]
      rcases Option.isSome_iff_exists.mp hrest with ⟨l', hl'⟩
      rw [hl']
      simp

theorem sqrt_demo_ten : Real.sqrt (((10 : ℝ) - 0) ^ 2 + ((0 : ℝ) - 0) ^ 2) = 10 := by
  rw [show ((10 : ℝ) - 0) ^ 2 + ((0 : ℝ) - 0) ^ 2 = 10 ^ 2 by norm_num,
    Real.sqrt_sq (by norm_num : (0 : ℝ) ≤ 10)]

theorem pdist_demo : pdist ((0 : ℝ), (0 : ℝ)) ((10 : ℝ), (0 : ℝ)) = 10 := by
  unfold pdist
  exact sqrt_demo_ten

/-- C4 (counterexample): on the TWO-point path (0,0)–(10,0) the satin
generator emits a non-empty zigzag (its guard is `len(coords) < 2`, not
`< 3`), refuting "fewer than 3 points never produce satin stitches". -/
theorem satin_two_points_produces_stitches :
    (generate_satin_stitches [((0 : ℝ), (0 : ℝ)), (10, 0)] 2).isSome = true ∧
    generate_satin_stitches [((0 : ℝ), (0 : ℝ)), (10, 0)] 2 ≠ some [] := by
  have hseg : satinSegs [((0 : ℝ), (0 : ℝ)), (10, 0)] = [(((0 : ℝ), (0 : ℝ)), (10, 0))] := rfl
  have hfind : ∀ (tg : ℝ) (i : ℕ),
      (satinFind 2 tg i (satinSegs [((0 : ℝ), (0 : ℝ)), (10, 0)]) 0).isSome := by
    intro tg i
    rw [hseg]
    by_cases hge : tg ≤ 0 + pdist ((0 : ℝ), (0 : ℝ)) ((10 : ℝ), (0 : ℝ))
    · rw [satinFind, if_pos hge, if_neg (by rw [pdist_demo]; norm_num)]
      rw [if_pos (by rw [sqrt_demo_ten]; norm_num : (0 : ℝ) < Real.sqrt (((10 : ℝ) - 0) ^ 2 + ((0 : ℝ) - 0) ^ 2))]
      simp
    · rw [satinFind, if_neg hge]
      simp [satinFind]
  have hf0 : ∀ num : ℕ, ∃ p, satinPointAt [((0 : ℝ), (0 : ℝ)), (10, 0)] 2 num 0 = some (some p) := by
    intro num
    have htg : (if 1 < num then ((0 : ℕ) : ℝ) / ((num : ℝ) - 1) else 0) *
        satinTotal [((0 : ℝ), (0 : ℝ)), (10, 0)] = 0 := by
      by_cases h1 : 1 < num <;> simp [h1]
    rw [satinPointAt, htg, hseg, satinFind,
      if_pos (by rw [pdist_demo]; norm_num : (0 : ℝ) ≤ 0 + pdist ((0 : ℝ), (0 : ℝ)) ((10 : ℝ), (0 : ℝ))),
      if_neg (by rw [pdist_demo]; norm_num),
      if_pos (by rw [sqrt_demo_ten]; norm_num : (0 : ℝ) < Real.sqrt (((10 : ℝ) - 0) ^ 2 + ((0 : ℝ) - 0) ^ 2))]
    exact ⟨_, rfl⟩
  set num := (max 2 (pyIntR (satinTotal [((0 : ℝ), (0 : ℝ)), (10, 0)] / (3/2)))).toNat with hnum
  have hnum2 : 2 ≤ num := by
    rw [hnum]
    have : ((2 : ℤ)).toNat ≤ (max 2 (pyIntR (satinTotal [((0 : ℝ), (0 : ℝ)), (10, 0)] / (3/2)))).toNat :=
      Int.toNat_le_toNat (le_max_left _ _)
    exact this
  obtain ⟨m, hm⟩ : ∃ m, num = m + 1 := ⟨num - 1, by omega⟩
  have hrun : generate_satin_stitches [((0 : ℝ), (0 : ℝ)), (10, 0)] 2 =
      satinOuter (satinPointAt [((0 : ℝ), (0 : ℝ)), (10, 0)] 2 num) (List.range num) := by
    rw [generate_satin_stitches, if_neg (by simp)]
  obtain ⟨p, hp⟩ := hf0 num
  rw [hm] at hp
  have hrest : (satinOuter (satinPointAt [((0 : ℝ), (0 : ℝ)), (10, 0)] 2 num)
      (List.map Nat.succ (List.range m))).isSome := by
    apply satinOuter_isSome
    intro i hi
    rw [satinPointAt]
    exact hfind _ i
  rcases Option.isSome_iff_exists.mp hrest with ⟨l', hl'⟩
  have hfinal : generate_satin_stitches [((0 : ℝ), (0 : ℝ)), (10, 0)] 2 = some (p :: l') := by
    rw [hrun, hm, List.range_succ_eq_map]
    simp only [satinOuter, hp]
    rw [hm] at hl'
    rw [hl']
    rfl
  rw [hfinal]
  simp


/-- C4 (amended): `generate_fill_stitches` returns the empty stitch
sequence for every coordinate sequence with fewer than 3 points, but
`generate_satin_stitches`'s guard is `len(coords) < 2`, not `< 3`: it
returns empty only below 2 points, and a 2-point path can produce satin
stitches (see `satin_two_points_produces_stitches`). -/
theorem short_inputs_guards :
    (∀ coords : List (ℚ × ℚ), coords.length < 3 → generate_fill_stitches coords = []) ∧
    (∀ (coords : List (ℝ × ℝ)) (width : ℝ), coords.length < 2 →
      generate_satin_stitches coords width = some []) := by
  constructor
  · intro coords h
    unfold generate_fill_stitches
    rw [if_pos h]
  · intro coords width h
    unfold generate_satin_stitches
    rw [if_pos h]

/-- Witness for C4 (amended) at the empty input. -/
theorem short_inputs_guards_witness :
    generate_fill_stitches ([] : List (ℚ × ℚ)) = [] ∧
    generate_satin_stitches ([] : List (ℝ × ℝ)) 2 = some [] :=
  ⟨short_inputs_guards.1 [] (by simp), short_inputs_guards.2 [] 2 (by simp)⟩
